import Mathlib

/-!
Verification of the client-side session/event-stream engine of the
`cursor_scaffold` repository (React client `client/src/App.tsx`,
store `client/src/store.ts`, server `server/src/index.ts`).

The definitions below are a shallow embedding of the TypeScript source:

* `Payload`, `ChatEvent`, `ChatSession` mirror `client/src/types.ts` and the
  fields of the wire frames that the code actually reads;
* `jsMapGet` / `jsMapSet` model the JavaScript `Map` (insertion-ordered
  association list; `set` replaces in place, appends fresh keys at the end);
* `addEvent`, `getEvents`, `serializeEvents`, `deserializeEvents` model the
  zustand store and its custom `storage` (Map ↔ entry-array) in
  `client/src/store.ts`;
* `processEvents`, `toolMapOf`, `shouldShowThinking`, `latestResult`,
  `isSuccess`, `deriveView` model the event-folding IIFE in the chat render
  path of `App.tsx` (lines 1113–1290 of the latest revision);
* `clientOnMessage`, `handleSend` model `newWs.onmessage` and `handleSend`;
* `handleStdoutLine` models the per-line stdout handler of
  `server/src/index.ts`;
* `onCloseHandler` models `newWs.onclose`.

JavaScript truthiness of optional strings is modelled by `strTruthy`
(absent or empty string is falsy).  Timestamps are `Nat`, exit codes `Int`.
-/

/-- JavaScript truthiness of an optional string: `undefined`, `null` and the
empty string are falsy, every other string is truthy. -/
def strTruthy : Option String → Bool
  | some s => s ≠ ""
  | none => false

/-- JavaScript `String.prototype.trim`: strip leading and trailing
whitespace (modelled over the character list so that it evaluates inside
the kernel). -/
def jsTrim (s : String) : String :=
  ⟨((s.data.dropWhile Char.isWhitespace).reverse.dropWhile Char.isWhitespace).reverse⟩

/-- Arguments of a shell tool call (`payload.toolCall.shellToolCall.args`). -/
structure ShellArgs where
  command : Option String := none
deriving DecidableEq

/-- A shell tool call (`payload.toolCall.shellToolCall`). -/
structure ShellToolCall where
  args : Option ShellArgs := none
deriving DecidableEq

/-- The `toolCall` object nested in a tool-call frame's payload. -/
structure ToolCallInfo where
  id : Option String := none
  shellToolCall : Option ShellToolCall := none
deriving DecidableEq

/-- The fields of a wire frame / event payload that the client code reads.
The client stores the whole parsed frame as `payload`, so this structure
doubles as the parsed frame type. -/
structure Payload where
  type : Option String := none
  subtype : Option String := none
  prompt : Option String := none
  message : Option String := none
  exitCode : Option Int := none
  is_error : Option Bool := none
  id : Option String := none
  toolCall : Option ToolCallInfo := none
  data : Option String := none
deriving DecidableEq

/-- `ChatEvent` from `client/src/types.ts`. -/
structure ChatEvent where
  id : String
  chatId : String
  timestamp : Nat
  type : String
  subtype : Option String := none
  payload : Payload := {}
  raw : String := ""
deriving DecidableEq

/-- `ChatSession` from `client/src/types.ts`. -/
structure ChatSession where
  chatId : String
  createdAt : Nat
  lastMessageAt : Nat
  title : Option String := none
deriving DecidableEq

/-- Lookup in a JavaScript `Map` modelled as an insertion-ordered
association list (`Map.get`). -/
def jsMapGet {α : Type} : List (String × α) → String → Option α
  | [], _ => none
  | (k, v) :: rest, key => if k = key then some v else jsMapGet rest key

/-- `Map.set`: replace the value of an existing key in place, otherwise
append the new entry at the end (JavaScript `Map` insertion order). -/
def jsMapSet {α : Type} : List (String × α) → String → α → List (String × α)
  | [], key, v => [(key, v)]
  | (k, w) :: rest, key, v =>
    if k = key then (key, v) :: rest else (k, w) :: jsMapSet rest key v

/-- The session → event-list `Map` held by the zustand store. -/
abbrev EventsMap := List (String × List ChatEvent)

/-- `addEvent` of `client/src/store.ts`: append the event to the session's
list (creating the list if absent) and write the list back into the map. -/
def addEvent (m : EventsMap) (chatId : String) (e : ChatEvent) : EventsMap :=
  jsMapSet m chatId (((jsMapGet m chatId).getD []) ++ [e])

/-- `getEvents` of `client/src/store.ts`. -/
def getEvents (m : EventsMap) (chatId : String) : List ChatEvent :=
  (jsMapGet m chatId).getD []

/-- The `setItem` half of the custom persistence `storage`: the events `Map`
is serialized as its entry array (`Array.from(map.entries())`). -/
def serializeEvents (m : EventsMap) : List (String × List ChatEvent) := m

/-- The `getItem` half of the custom persistence `storage`: the entry array
is replayed into a fresh `Map` with `forEach(([k, v]) => map.set(k, v))`. -/
def deserializeEvents (l : List (String × List ChatEvent)) : EventsMap :=
  l.foldl (fun acc kv => jsMapSet acc kv.1 kv.2) []

/-- Appending a whole sequence of events for one session, one `addEvent` at a
time. -/
def appendAll (m : EventsMap) (chatId : String) (es : List ChatEvent) : EventsMap :=
  es.foldl (fun acc e => addEvent acc chatId e) m

/-- `event.payload?.toolCall?.id`. -/
def toolCallIdOf (p : Payload) : Option String :=
  p.toolCall.bind fun tc => tc.id

/-- `event.payload?.toolCall?.shellToolCall?.args?.command`. -/
def shellCmdOf (p : Payload) : Option String :=
  ((p.toolCall.bind fun tc => tc.shellToolCall).bind fun s => s.args).bind
    fun a => a.command

/-- The tool identifier of a tool-call event, with the precedence of the
`toolId` extraction in `App.tsx`: explicit `toolCall.id`, else `payload.id`,
else the shell command, else the synthesized `tool-TIMESTAMP-EVENTID`. -/
def toolId (e : ChatEvent) : String :=
  if strTruthy (toolCallIdOf e.payload) then (toolCallIdOf e.payload).getD ""
  else if strTruthy e.payload.id then e.payload.id.getD ""
  else if strTruthy (shellCmdOf e.payload) then (shellCmdOf e.payload).getD ""
  else "tool-" ++ toString e.timestamp ++ "-" ++ e.id

/-- One record of the `toolCallMap`. -/
structure ToolRec where
  started : Option ChatEvent := none
  completed : Option ChatEvent := none
deriving DecidableEq

/-- The `toolCallMap` built while folding the event list. -/
abbrev ToolMap := List (String × ToolRec)

/-- Processing of one tool-call event into the `toolCallMap`: ensure the
record exists, then set its `started` or `completed` field by `subtype`. -/
def recordToolCall (tm : ToolMap) (e : ChatEvent) : ToolMap :=
  let tid := toolId e
  let r0 := (jsMapGet tm tid).getD {}
  let r1 :=
    if e.subtype = some "started" then { r0 with started := some e }
    else if e.subtype = some "completed" then { r0 with completed := some e }
    else r0
  jsMapSet tm tid r1

/-- One step of the `currentEvents.forEach` fold of `App.tsx`: thinking
deltas, system-init, empty user prompts and (all) thinking events are
filtered out; tool-call events update the `toolCallMap` only; everything
else is pushed onto `filteredEvents`. -/
def processEvent (acc : List ChatEvent × ToolMap) (e : ChatEvent) :
    List ChatEvent × ToolMap :=
  if e.type = "thinking" ∧ e.subtype = some "delta" then acc
  else if e.type = "system" ∧ e.subtype = some "init" then acc
  else if e.type = "tool_call" then (acc.1, recordToolCall acc.2 e)
  else if e.type = "user" ∧
      (strTruthy e.payload.prompt = false ∨ jsTrim (e.payload.prompt.getD "") = "")
    then acc
  else if e.type = "thinking" then acc
  else (acc.1 ++ [e], acc.2)

/-- The whole `currentEvents.forEach` fold. -/
def processEvents (es : List ChatEvent) : List ChatEvent × ToolMap :=
  es.foldl processEvent ([], [])

/-- `filteredEvents` of `App.tsx`. -/
def filteredEvents (es : List ChatEvent) : List ChatEvent :=
  (processEvents es).1

/-- The finished `toolCallMap`. -/
def toolMapOf (es : List ChatEvent) : ToolMap :=
  (processEvents es).2

/-- `toolCalls`: the map entries restricted to tools that have started. -/
def toolCallsOf (es : List ChatEvent) : ToolMap :=
  (toolMapOf es).filter fun kv => kv.2.started.isSome

/-- `totalToolCalls`. -/
def totalToolCalls (es : List ChatEvent) : Nat :=
  (toolCallsOf es).length

/-- `completedToolCalls`. -/
def completedToolCalls (es : List ChatEvent) : Nat :=
  ((toolCallsOf es).filter fun kv => kv.2.completed.isSome).length

/-- The pending ("in progress") tool-call count displayed by
`ToolCallStatus` (`pending = total - completed`). -/
def inProgressCount (es : List ChatEvent) : Nat :=
  totalToolCalls es - completedToolCalls es

/-- `resultEvents`: the displayable events of type `result`. -/
def resultEvents (es : List ChatEvent) : List ChatEvent :=
  (filteredEvents es).filter fun e => decide (e.type = "result")

/-- `latestResult`: the last result event, if any. -/
def latestResult (es : List ChatEvent) : Option ChatEvent :=
  (resultEvents es).getLast?

/-- `nonResultEvents`: the displayed messages. -/
def nonResultEvents (es : List ChatEvent) : List ChatEvent :=
  (filteredEvents es).filter fun e => decide (e.type ≠ "result")

/-- `thinkingEvents`: all non-delta thinking events of the raw log. -/
def thinkingEvents (es : List ChatEvent) : List ChatEvent :=
  es.filter fun e => decide (e.type = "thinking" ∧ e.subtype ≠ some "delta")

/-- `latestThinking`. -/
def latestThinking (es : List ChatEvent) : Option ChatEvent :=
  (thinkingEvents es).getLast?

/-- `shouldShowThinking`: show the transient indicator when a non-delta
thinking event exists and is strictly newer (by timestamp) than the last
displayed message, comparing only against `nonResultEvents`. -/
def shouldShowThinking (es : List ChatEvent) : Bool :=
  match latestThinking es with
  | none => false
  | some t =>
    match (nonResultEvents es).getLast? with
    | none => true
    | some m => decide (m.timestamp < t.timestamp)

/-- `isSuccess` of the latest-result rendering in `App.tsx`:
`subtype === 'success' || payload.exitCode === 0 || payload.is_error === false`. -/
def isSuccess (r : ChatEvent) : Bool :=
  decide (r.subtype = some "success") || decide (r.payload.exitCode = some 0)
    || decide (r.payload.is_error = some false)

/-- The derived view state: displayed messages, tool-call records and
counts, thinking indicator, latest outcome. -/
structure ViewState where
  messages : List ChatEvent
  toolCalls : ToolMap
  total : Nat
  completed : Nat
  showThinking : Bool
  latest : Option ChatEvent
deriving DecidableEq

/-- The full derivation of the view state from a session's event list. -/
def deriveView (es : List ChatEvent) : ViewState :=
  { messages := nonResultEvents es
    toolCalls := toolCallsOf es
    total := totalToolCalls es
    completed := completedToolCalls es
    showThinking := shouldShowThinking es
    latest := latestResult es }

/-- The zustand store state used by the handlers. -/
structure StoreState where
  currentChatId : Option String := none
  sessions : List ChatSession := []
  events : EventsMap := []
deriving DecidableEq

/-- Construction of the `ChatEvent` stored by `newWs.onmessage`
(`type: data.type || 'unknown'`). -/
def mkChatEvent (cid : String) (now : Nat) (eid : String) (raw : String)
    (d : Payload) : ChatEvent :=
  { id := eid, chatId := cid, timestamp := now
    type := if strTruthy d.type then d.type.getD "" else "unknown"
    subtype := d.subtype, payload := d, raw := raw }

/-- `newWs.onmessage` of `App.tsx`: a frame that fails to parse is dropped
(the catch block only logs); the `connected` handshake is ignored; with no
bound (truthy) `currentChatId` the frame is discarded; echoed `user` frames
are skipped; everything else is appended to the store. -/
def clientOnMessage (s : StoreState) (raw : String) (parsed : Option Payload)
    (now : Nat) (eid : String) : StoreState :=
  match parsed with
  | none => s
  | some d =>
    if d.type = some "connected" then s
    else
      match s.currentChatId with
      | none => s
      | some cid =>
        if cid = "" then s
        else if d.type = some "user" then s
        else { s with events := addEvent s.events cid (mkChatEvent cid now eid raw d) }

/-- The frame transmitted by `handleSend` over the channel. -/
structure SendFrame where
  chatId : String
  prompt : String
deriving DecidableEq

/-- Raw JSON text of the locally-authored user event
(`JSON.stringify({type:'user', prompt})`; JSON string escaping of the
prompt is not modelled). -/
def rawUserFrame (prompt : String) : String :=
  "\x7b\"type\":\"user\",\"prompt\":\"" ++ prompt ++ "\"\x7d"

/-- The locally-authored user event appended by `handleSend`. -/
def userEventOf (cid : String) (now : Nat) (eid : String) (prompt : String) :
    ChatEvent :=
  { id := eid, chatId := cid, timestamp := now, type := "user"
    subtype := none, payload := { prompt := some prompt }
    raw := rawUserFrame prompt }

/-- `handleSend` of `App.tsx`:
`if (!input || !currentChatId || !ws || !connected) return;` then append the
user event to the store and transmit the `send` frame. The returned pair is
the updated store and the transmitted frame, if any. -/
def handleSend (s : StoreState) (input : String) (wsPresent connected : Bool)
    (now : Nat) (eid : String) : StoreState × Option SendFrame :=
  if input = "" then (s, none)
  else
    match s.currentChatId with
    | none => (s, none)
    | some cid =>
      if cid = "" then (s, none)
      else if wsPresent = false then (s, none)
      else if connected = false then (s, none)
      else ({ s with events := addEvent s.events cid (userEventOf cid now eid input) },
            some ⟨cid, input⟩)

/-- The `{ type: 'raw', data: line }` frame the server wraps an unparseable
stdout line into. -/
def rawWrapPayload (line : String) : Payload :=
  { type := some "raw", data := some line }

/-- Per-line stdout handler of `server/src/index.ts`: blank lines are
skipped; a line that parses is forwarded; a line that fails to parse is
wrapped as a `raw` diagnostic frame and forwarded (never dropped). -/
def handleStdoutLine (line : String) (parsed : Option Payload) : List Payload :=
  if jsTrim line = "" then []
  else
    match parsed with
    | some ev => [ev]
    | none => [rawWrapPayload line]

/-- The channel connection state visible in `App.tsx`: the `connected` flag
and whether a socket object is held. -/
structure ConnState where
  connected : Bool
  wsPresent : Bool
deriving DecidableEq

/-- `newWs.onclose` of `App.tsx`: it ignores the close code entirely, sets
`connected` to `false` and clears the socket; the second component is a
scheduled reconnection delay — the handler never schedules one. -/
def onCloseHandler (code : Nat) (s : ConnState) : ConnState × Option Nat :=
  let _ := code
  let _ := s
  ({ connected := false, wsPresent := false }, none)

/-- Modelled from the spec (§4.1 reconnection policy, absent from the
repository's client code): after an abnormal closure (any code other than
1000) the attempt counter is incremented and a retry is scheduled after
`base * min(attempt, 5)`; code 1000 schedules nothing. Defined only to be
compared with `onCloseHandler`. -/
def specReconnectOnClose (code attempt base : Nat) : Option (Nat × Nat) :=
  if code = 1000 then none
  else some (attempt + 1, base * min (attempt + 1) 5)

/-- The React component state that feeds the render: the store plus
UI-only fields. The render derives the view from
`currentChatId ? getEvents(currentChatId) : []`. -/
structure AppComponentState where
  store : StoreState
  input : String := ""
  connected : Bool := false
  wsPresent : Bool := false
  activeTab : String := "chat"
deriving DecidableEq

/-- `currentEvents` of the render path. -/
def currentEvents (s : AppComponentState) : List ChatEvent :=
  match s.store.currentChatId with
  | none => []
  | some cid => getEvents s.store.events cid

/-- The derived view of the whole component state. -/
def deriveApp (s : AppComponentState) : ViewState :=
  deriveView (currentEvents s)

/-- The effect of one event on the tool-call map alone: only tool-call
events touch it. -/
def recordStep (tm : ToolMap) (e : ChatEvent) : ToolMap :=
  if e.type = "tool_call" then recordToolCall tm e else tm

/-- A payload carrying an explicit `toolCall.id`. -/
def toolIdPayload (tid : String) : Payload :=
  { toolCall := some { id := some tid } }

/-- A `tool_call started` event with an explicit call identifier. -/
def toolStartedEvent (tid eid : String) (ts : Nat) : ChatEvent :=
  { id := eid, chatId := "c", timestamp := ts, type := "tool_call"
    subtype := some "started", payload := toolIdPayload tid }

/-- A `tool_call completed` event with an explicit call identifier. -/
def toolCompletedEvent (tid eid : String) (ts : Nat) : ChatEvent :=
  { id := eid, chatId := "c", timestamp := ts, type := "tool_call"
    subtype := some "completed", payload := toolIdPayload tid }

/-- A standalone (non-empty) user message event. -/
def userMessageEvent (eid : String) (ts : Nat) (text : String) : ChatEvent :=
  { id := eid, chatId := "c", timestamp := ts, type := "user"
    payload := { prompt := some text } }

/-- A non-delta (final) thinking event. -/
def thinkingFinalEvent (eid : String) (ts : Nat) : ChatEvent :=
  { id := eid, chatId := "c", timestamp := ts, type := "thinking"
    subtype := some "final" }

/-- A result (outcome) event with the given subkind and exit code. -/
def resultEventOf (eid : String) (ts : Nat) (sub : Option String)
    (ec : Option Int) : ChatEvent :=
  { id := eid, chatId := "c", timestamp := ts, type := "result"
    subtype := sub, payload := { subtype := sub, exitCode := ec } }

/-- A tool-call event whose payload has neither `toolCall.id` nor `id`,
only a shell command. -/
def shellOnlyEvent : ChatEvent :=
  { id := "e1", chatId := "c", timestamp := 7, type := "tool_call"
    subtype := some "started"
    payload :=
      { toolCall := some { shellToolCall := some { args := some { command := some "ls" } } } } }

/-- The spec's two-tool-call scenario log: a user message followed by the
`t1` started / completed pair. -/
def scenarioLog : List ChatEvent :=
  [userMessageEvent "u1" 1 "ping", toolStartedEvent "t1" "e1" 2,
   toolCompletedEvent "t1" "e2" 3]

/-! ### Lemmas about the JavaScript `Map` model -/

theorem jsMapGet_jsMapSet_self {α : Type} (m : List (String × α)) (k : String)
    (v : α) : jsMapGet (jsMapSet m k v) k = some v := by
  induction m with
  | nil => simp [jsMapSet, jsMapGet]
  | cons kv rest ih =>
    obtain ⟨k', w⟩ := kv
    by_cases h : k' = k
    · simp [jsMapSet, jsMapGet, h]
    · simp [jsMapSet, jsMapGet, h, ih]

theorem jsMapSet_of_not_mem {α : Type} (m : List (String × α)) (k : String)
    (v : α) (h : k ∉ m.map Prod.fst) : jsMapSet m k v = m ++ [(k, v)] := by
  induction m with
  | nil => rfl
  | cons kv rest ih =>
    obtain ⟨k', w⟩ := kv
    simp only [List.map_cons, List.mem_cons, not_or] at h
    have hne : k' ≠ k := fun hk => h.1 hk.symm
    simp [jsMapSet, hne, ih h.2]

theorem map_fst_jsMapSet_of_mem {α : Type} (m : List (String × α)) (k : String)
    (v : α) (h : k ∈ m.map Prod.fst) :
    (jsMapSet m k v).map Prod.fst = m.map Prod.fst := by
  induction m with
  | nil => simp at h
  | cons kv rest ih =>
    obtain ⟨k', w⟩ := kv
    by_cases hk : k' = k
    · simp [jsMapSet, hk]
    · have hmem : k ∈ rest.map Prod.fst := by
        simp only [List.map_cons, List.mem_cons] at h
        rcases h with h | h
        · exact absurd h.symm hk
        · exact h
      simp [jsMapSet, hk, ih hmem]

theorem nodup_map_fst_jsMapSet {α : Type} (m : List (String × α)) (k : String)
    (v : α) (h : (m.map Prod.fst).Nodup) :
    ((jsMapSet m k v).map Prod.fst).Nodup := by
  by_cases hk : k ∈ m.map Prod.fst
  · rw [map_fst_jsMapSet_of_mem m k v hk]; exact h
  · rw [jsMapSet_of_not_mem m k v hk]
    simp [List.nodup_append, h, hk]

theorem mem_map_fst_jsMapSet_self {α : Type} (m : List (String × α)) (k : String)
    (v : α) : k ∈ (jsMapSet m k v).map Prod.fst := by
  induction m with
  | nil => simp [jsMapSet]
  | cons kv rest ih =>
    obtain ⟨k', w⟩ := kv
    by_cases hk : k' = k
    · simp [jsMapSet, hk]
    · simp [jsMapSet, hk, ih]

theorem mem_map_fst_jsMapSet_mono {α : Type} (m : List (String × α))
    (k k' : String) (v : α) (h : k' ∈ m.map Prod.fst) :
    k' ∈ (jsMapSet m k v).map Prod.fst := by
  by_cases hk : k ∈ m.map Prod.fst
  · rw [map_fst_jsMapSet_of_mem m k v hk]; exact h
  · rw [jsMapSet_of_not_mem m k v hk]
    simp [h]

/-! ### Lemmas about the Session Store -/

theorem getEvents_addEvent_self (m : EventsMap) (cid : String) (e : ChatEvent) :
    getEvents (addEvent m cid e) cid = getEvents m cid ++ [e] := by
  simp [getEvents, addEvent, jsMapGet_jsMapSet_self]

theorem getEvents_appendAll (m : EventsMap) (cid : String) (es : List ChatEvent) :
    getEvents (appendAll m cid es) cid = getEvents m cid ++ es := by
  induction es generalizing m with
  | nil => simp [appendAll]
  | cons e rest ih =>
    have : appendAll m cid (e :: rest) = appendAll (addEvent m cid e) cid rest := rfl
    rw [this, ih, getEvents_addEvent_self]
    simp

theorem nodup_map_fst_addEvent (m : EventsMap) (cid : String) (e : ChatEvent)
    (h : (m.map Prod.fst).Nodup) : ((addEvent m cid e).map Prod.fst).Nodup :=
  nodup_map_fst_jsMapSet m cid _ h

theorem nodup_map_fst_appendAll (m : EventsMap) (cid : String)
    (es : List ChatEvent) (h : (m.map Prod.fst).Nodup) :
    ((appendAll m cid es).map Prod.fst).Nodup := by
  induction es generalizing m with
  | nil => exact h
  | cons e rest ih =>
    exact ih (addEvent m cid e) (nodup_map_fst_addEvent m cid e h)

theorem foldl_jsMapSet_entries (l : List (String × List ChatEvent)) :
    ∀ acc : EventsMap, (((acc ++ l).map Prod.fst).Nodup) →
      l.foldl (fun a kv => jsMapSet a kv.1 kv.2) acc = acc ++ l := by
  induction l with
  | nil => intro acc _; simp
  | cons kv rest ih =>
    intro acc h
    obtain ⟨k, v⟩ := kv
    have hk : k ∉ acc.map Prod.fst := by
      intro hmem
      simp only [List.map_append, List.nodup_append, List.map_cons] at h
      exact h.2.2 hmem (List.mem_cons_self _ _)
    rw [List.foldl_cons]
    have h' : (((acc ++ [(k, v)]) ++ rest).map Prod.fst).Nodup := by
      simpa [List.append_assoc] using h
    calc rest.foldl (fun a kv => jsMapSet a kv.1 kv.2) (jsMapSet acc k v)
        = rest.foldl (fun a kv => jsMapSet a kv.1 kv.2) (acc ++ [(k, v)]) := by
          rw [jsMapSet_of_not_mem acc k v hk]
      _ = (acc ++ [(k, v)]) ++ rest := ih (acc ++ [(k, v)]) h'
      _ = acc ++ (k, v) :: rest := by simp

theorem deserialize_serialize (m : EventsMap) (h : (m.map Prod.fst).Nodup) :
    deserializeEvents (serializeEvents m) = m := by
  have := foldl_jsMapSet_entries m [] (by simpa using h)
  simpa [deserializeEvents, serializeEvents] using this

/-! ### Lemmas about the event-folding reducer -/

theorem processEvent_snd (acc : List ChatEvent × ToolMap) (e : ChatEvent) :
    (processEvent acc e).2 = recordStep acc.2 e := by
  unfold processEvent recordStep
  split_ifs with h1 h2 h3 h4 h5 <;> simp_all

theorem foldl_processEvent_snd (es : List ChatEvent) :
    ∀ fes tm, (es.foldl processEvent (fes, tm)).2 = es.foldl recordStep tm := by
  induction es with
  | nil => intro fes tm; rfl
  | cons e rest ih =>
    intro fes tm
    rw [List.foldl_cons, List.foldl_cons]
    have h := ih (processEvent (fes, tm) e).1 (processEvent (fes, tm) e).2
    rw [Prod.mk.eta] at h
    rw [h, processEvent_snd]

theorem toolMapOf_eq_foldl (es : List ChatEvent) :
    toolMapOf es = es.foldl recordStep [] :=
  foldl_processEvent_snd es [] []

theorem foldl_recordStep_filter (es : List ChatEvent) :
    ∀ tm, es.foldl recordStep tm =
      (es.filter fun e => decide (e.type = "tool_call")).foldl recordStep tm := by
  induction es with
  | nil => intro tm; rfl
  | cons e rest ih =>
    intro tm
    by_cases h : e.type = "tool_call"
    · simp only [List.foldl_cons, List.filter_cons, h, decide_True]
      exact ih (recordStep tm e)
    · simp only [List.foldl_cons, List.filter_cons, h, decide_False]
      rw [show recordStep tm e = tm from by simp [recordStep, h]]
      exact ih tm

theorem processEvent_fst_cases (acc : List ChatEvent × ToolMap) (e : ChatEvent) :
    ((processEvent acc e).1 = acc.1 ∧ e.type ≠ "result") ∨
      (processEvent acc e).1 = acc.1 ++ [e] := by
  unfold processEvent
  split_ifs with h1 h2 h3 h4 h5
  · exact Or.inl ⟨rfl, by rw [h1.1]; decide⟩
  · exact Or.inl ⟨rfl, by rw [h2.1]; decide⟩
  · exact Or.inl ⟨rfl, by rw [h3]; decide⟩
  · exact Or.inl ⟨rfl, by rw [h4.1]; decide⟩
  · exact Or.inl ⟨rfl, by rw [h5]; decide⟩
  · exact Or.inr rfl

theorem processEvent_fst_mem_cases (acc : List ChatEvent × ToolMap) (e : ChatEvent) :
    (processEvent acc e).1 = acc.1 ∨
      ((processEvent acc e).1 = acc.1 ++ [e] ∧
        e.type ≠ "thinking" ∧ e.type ≠ "tool_call") := by
  unfold processEvent
  split_ifs with h1 h2 h3 h4 h5
  · exact Or.inl rfl
  · exact Or.inl rfl
  · exact Or.inl rfl
  · exact Or.inl rfl
  · exact Or.inl rfl
  · exact Or.inr ⟨rfl, h5, h3⟩

theorem mem_foldl_processEvent_fst (es : List ChatEvent) :
    ∀ fes tm x, x ∈ (es.foldl processEvent (fes, tm)).1 →
      x ∈ fes ∨ (x.type ≠ "thinking" ∧ x.type ≠ "tool_call") := by
  induction es with
  | nil => intro fes tm x hx; exact Or.inl hx
  | cons e rest ih =>
    intro fes tm x hx
    rw [List.foldl_cons] at hx
    have hx' : x ∈ (rest.foldl processEvent
        ((processEvent (fes, tm) e).1, (processEvent (fes, tm) e).2)).1 := by
      rw [Prod.mk.eta]; exact hx
    rcases ih _ _ x hx' with hmem | hprop
    · rcases processEvent_fst_mem_cases (fes, tm) e with h | ⟨h, hth, htc⟩
      · rw [h] at hmem; exact Or.inl hmem
      · rw [h] at hmem
        rcases List.mem_append.mp hmem with hmem | hmem
        · exact Or.inl hmem
        · rcases List.mem_singleton.mp hmem with rfl
          exact Or.inr ⟨hth, htc⟩
    · exact Or.inr hprop

theorem filter_result_foldl_processEvent (es : List ChatEvent) :
    ∀ fes tm, ((es.foldl processEvent (fes, tm)).1).filter
        (fun x => decide (x.type = "result")) =
      fes.filter (fun x => decide (x.type = "result")) ++
        es.filter (fun x => decide (x.type = "result")) := by
  induction es with
  | nil => intro fes tm; simp
  | cons e rest ih =>
    intro fes tm
    rw [List.foldl_cons]
    have heq : rest.foldl processEvent (processEvent (fes, tm) e) =
        rest.foldl processEvent
          ((processEvent (fes, tm) e).1, (processEvent (fes, tm) e).2) := by
      rw [Prod.mk.eta]
    rw [heq, ih]
    rcases processEvent_fst_cases (fes, tm) e with ⟨h, hres⟩ | h
    · rw [h]
      simp [List.filter_cons, hres]
    · rw [h]
      by_cases hres : e.type = "result"
      · simp [List.filter_cons, List.filter_append, hres]
      · simp [List.filter_cons, List.filter_append, hres]

theorem resultEvents_eq (es : List ChatEvent) :
    resultEvents es = es.filter fun x => decide (x.type = "result") := by
  have := filter_result_foldl_processEvent es [] []
  simpa [resultEvents, filteredEvents, processEvents] using this

theorem shouldShowThinking_iff (es : List ChatEvent) (t : ChatEvent)
    (ht : latestThinking es = some t) :
    shouldShowThinking es = true ↔
      ∀ m, (nonResultEvents es).getLast? = some m →
        m.timestamp < t.timestamp := by
  unfold shouldShowThinking
  rw [ht]
  cases hm : (nonResultEvents es).getLast? with
  | none => simp
  | some m => simp

theorem nodup_map_fst_recordStep (tm : ToolMap) (e : ChatEvent)
    (h : (tm.map Prod.fst).Nodup) : ((recordStep tm e).map Prod.fst).Nodup := by
  unfold recordStep
  split_ifs with ht
  · exact nodup_map_fst_jsMapSet tm (toolId e) _ h
  · exact h

theorem nodup_map_fst_foldl_recordStep (es : List ChatEvent) :
    ∀ tm, (tm.map Prod.fst).Nodup →
      ((es.foldl recordStep tm).map Prod.fst).Nodup := by
  induction es with
  | nil => intro tm h; exact h
  | cons e rest ih =>
    intro tm h
    exact ih (recordStep tm e) (nodup_map_fst_recordStep tm e h)

theorem mem_map_fst_recordToolCall_self (tm : ToolMap) (e : ChatEvent) :
    toolId e ∈ (recordToolCall tm e).map Prod.fst :=
  mem_map_fst_jsMapSet_self tm (toolId e) _

theorem mem_map_fst_recordStep_mono (tm : ToolMap) (e : ChatEvent) (k : String)
    (h : k ∈ tm.map Prod.fst) : k ∈ (recordStep tm e).map Prod.fst := by
  unfold recordStep
  split_ifs with ht
  · exact mem_map_fst_jsMapSet_mono tm (toolId e) k _ h
  · exact h

theorem mem_map_fst_foldl_recordStep_mono (es : List ChatEvent) :
    ∀ tm k, k ∈ tm.map Prod.fst →
      k ∈ ((es.foldl recordStep tm).map Prod.fst) := by
  induction es with
  | nil => intro tm k h; exact h
  | cons e rest ih =>
    intro tm k h
    exact ih (recordStep tm e) k (mem_map_fst_recordStep_mono tm e k h)

theorem mem_map_fst_foldl_recordStep (es : List ChatEvent) :
    ∀ tm e, e ∈ es → e.type = "tool_call" →
      toolId e ∈ ((es.foldl recordStep tm).map Prod.fst) := by
  induction es with
  | nil => intro tm e he; cases he
  | cons x rest ih =>
    intro tm e he ht
    rw [List.foldl_cons]
    rcases List.mem_cons.mp he with rfl | hmem
    · apply mem_map_fst_foldl_recordStep_mono
      unfold recordStep
      rw [if_pos ht]
      exact mem_map_fst_recordToolCall_self tm e
    · exact ih (recordStep tm x) e hmem ht

theorem nodup_keys_toolMapOf (es : List ChatEvent) :
    ((toolMapOf es).map Prod.fst).Nodup := by
  rw [toolMapOf_eq_foldl]
  exact nodup_map_fst_foldl_recordStep es [] (by simp)

theorem mem_keys_toolMapOf {es : List ChatEvent} {e : ChatEvent}
    (he : e ∈ es) (ht : e.type = "tool_call") :
    toolId e ∈ (toolMapOf es).map Prod.fst := by
  rw [toolMapOf_eq_foldl]
  exact mem_map_fst_foldl_recordStep es [] e he ht

/-! ### Claim theorems -/

/-- C1 counterexample: after an abnormal closure with code 1006 the client's
close handler schedules no reconnection at all (second component `none`),
while the spec's backoff machine would increment the attempt counter to 1
and schedule a retry — so the claimed counter run 1, 2, 3 never happens. -/
theorem C1_counterexample_abnormal_close_schedules_nothing :
    (onCloseHandler 1006 { connected := true, wsPresent := true }).2 = none ∧
    specReconnectOnClose 1006 0 1000 = some (1, 1000) :=
  ⟨rfl, by decide⟩

/-- C1 (amended): the close handler ignores the close code entirely — every
closure, with code 1006 or 1000 alike, sets the connection state to
disconnected and clears the socket, schedules no reconnection, and no
reconnect-attempt counter exists; in particular a closure with code 1000
schedules no reconnection (the one part of the original claim that holds). -/
theorem C1_close_handler_never_reconnects (code : Nat) (s : ConnState) :
    onCloseHandler code s = ({ connected := false, wsPresent := false }, none) :=
  rfl

/-- C2 counterexample: in the log [tool started "t2" at time 1, user message
at time 2] the only tool call started strictly before the latest user
message and is still open, yet the displayed in-progress count is 1, not the
0 the turn-scoping claim requires. -/
theorem C2_counterexample_no_turn_scoping :
    inProgressCount [toolStartedEvent "t2" "e1" 1, userMessageEvent "e2" 2 "hi"] = 1 ∧
    (toolStartedEvent "t2" "e1" 1).timestamp < (userMessageEvent "e2" 2 "hi").timestamp := by
  decide

/-- C2 (amended): the tool-call map, hence the counts and completion ratio,
is computed over the session's whole event log with no turn scoping — it is
invariant under deleting every non-tool-call event (user messages included),
so a tool call started before the latest user message still counts; in the
scenario log (user message, then "t1" started and completed) the
completion ratio is 1/1 and the in-progress count is 0. -/
theorem C2_toolcounts_over_whole_log (es : List ChatEvent) :
    toolMapOf es = toolMapOf (es.filter fun e => decide (e.type = "tool_call")) ∧
    totalToolCalls scenarioLog = 1 ∧ completedToolCalls scenarioLog = 1 ∧
    inProgressCount scenarioLog = 0 := by
  refine ⟨?_, by decide, by decide, by decide⟩
  rw [toolMapOf_eq_foldl, toolMapOf_eq_foldl]
  exact foldl_recordStep_filter es []

/-- C3 counterexample: in the log [final thinking at time 5, tool-call
started at time 10] a tool-call event strictly newer than the thinking event
has arrived, yet the thinking indicator is still shown — tool-call (and
result) events do not hide it. -/
theorem C3_counterexample_toolcall_does_not_hide_thinking :
    shouldShowThinking [thinkingFinalEvent "e1" 5, toolStartedEvent "t9" "e2" 10] = true ∧
    (thinkingFinalEvent "e1" 5).timestamp < (toolStartedEvent "t9" "e2" 10).timestamp := by
  decide

/-- C3 (amended): the thinking indicator is shown iff a qualifying
(non-delta) thinking event exists and is strictly newer (by timestamp) than
the last displayed message — the comparison is only against the
non-result displayed messages, so newer tool-call and result events do not
hide it; when no qualifying thinking event exists it is never shown; and a
thinking event is never stored among the displayed messages. -/
theorem C3_thinking_indicator_rule (es : List ChatEvent) :
    (∀ t, latestThinking es = some t →
      (shouldShowThinking es = true ↔
        ∀ m, (nonResultEvents es).getLast? = some m →
          m.timestamp < t.timestamp)) ∧
    (latestThinking es = none → shouldShowThinking es = false) ∧
    (∀ x ∈ nonResultEvents es, x.type ≠ "thinking") := by
  refine ⟨fun t ht => shouldShowThinking_iff es t ht, ?_, ?_⟩
  · intro hnone
    unfold shouldShowThinking
    rw [hnone]
  · intro x hx
    have hx' : x ∈ filteredEvents es := (List.mem_filter.mp hx).1
    rcases mem_foldl_processEvent_fst es [] [] x hx' with h | h
    · cases h
    · exact h.1

/-- C3 witness: in a log holding a single final thinking event the
indicator is shown. -/
theorem C3_witness_indicator_shown :
    shouldShowThinking [thinkingFinalEvent "w1" 3] = true :=
  ((C3_thinking_indicator_rule [thinkingFinalEvent "w1" 3]).1
      (thinkingFinalEvent "w1" 3) (by decide)).mpr
    (by
      intro m hm
      rw [show (nonResultEvents [thinkingFinalEvent "w1" 3]).getLast? = none from
        by decide] at hm
      cases hm)

/-- C4 counterexample: a result event with explicit subkind "error" but exit
code 0 is surfaced (it is the latest result) and reported as success — the
code never checks for an explicit error subkind before consulting the exit
code. -/
theorem C4_counterexample_error_subkind_with_zero_exit :
    latestResult [resultEventOf "r1" 5 (some "error") (some 0)] =
      some (resultEventOf "r1" 5 (some "error") (some 0)) ∧
    isSuccess (resultEventOf "r1" 5 (some "error") (some 0)) = true ∧
    (resultEventOf "r1" 5 (some "error") (some 0)).subtype = some "error" := by
  decide

/-- C4 (amended): only the single most recent result event of the log is
surfaced, and it is reported as success exactly when it carries an explicit
success subkind, or a zero exit code, or an explicit non-error flag —
regardless of whether an explicit error subkind is present. -/
theorem C4_latest_result_and_success (es : List ChatEvent) (r : ChatEvent) :
    latestResult es = (es.filter fun x => decide (x.type = "result")).getLast? ∧
    (isSuccess r = true ↔
      (r.subtype = some "success" ∨ r.payload.exitCode = some 0 ∨
        r.payload.is_error = some false)) := by
  constructor
  · rw [latestResult, resultEvents_eq]
  · simp [isSuccess, or_assoc]

/-- C5: appending a sequence of events for a session and reading them back
yields exactly that sequence appended to what was there before (no loss, no
reordering), and the persisted record round-trips losslessly through the
Map-to-entry-array serialization, preserving keys, values and insertion
order. -/
theorem C5_store_append_and_roundtrip (m : EventsMap)
    (hm : (m.map Prod.fst).Nodup) (cid : String) (es : List ChatEvent) :
    getEvents (appendAll m cid es) cid = getEvents m cid ++ es ∧
    deserializeEvents (serializeEvents (appendAll m cid es)) =
      appendAll m cid es :=
  ⟨getEvents_appendAll m cid es,
   deserialize_serialize _ (nodup_map_fst_appendAll m cid es hm)⟩

/-- C5 witness: appending two events to a store that already holds a session
with an empty log reads them back in order, and the round trip is the
identity. -/
theorem C5_witness_concrete_roundtrip :
    getEvents (appendAll [("a", [])] "a"
        [userMessageEvent "u1" 1 "x", thinkingFinalEvent "u2" 2]) "a" =
      [userMessageEvent "u1" 1 "x", thinkingFinalEvent "u2" 2] ∧
    deserializeEvents (serializeEvents (appendAll [("a", [])] "a"
        [userMessageEvent "u1" 1 "x", thinkingFinalEvent "u2" 2])) =
      appendAll [("a", [])] "a"
        [userMessageEvent "u1" 1 "x", thinkingFinalEvent "u2" 2] := by
  have h := C5_store_append_and_roundtrip [("a", [])] (by decide) "a"
    [userMessageEvent "u1" 1 "x", thinkingFinalEvent "u2" 2]
  exact ⟨by simpa using h.1, h.2⟩

/-- C6: the derived view state is a pure function of the current session's
event log — two component states that agree on the bound session identifier
and the event map (but may differ in input text, connection flags or the
active tab) derive identical view states, so replaying the same event
sequence always yields the same view. -/
theorem C6_view_pure_function_of_log (s1 s2 : AppComponentState)
    (hcid : s1.store.currentChatId = s2.store.currentChatId)
    (hev : s1.store.events = s2.store.events) :
    deriveApp s1 = deriveApp s2 := by
  unfold deriveApp currentEvents
  rw [hcid, hev]

/-- C6 witness: two states differing only in UI fields derive the same view. -/
theorem C6_witness_ui_fields_irrelevant :
    deriveApp { store := { currentChatId := some "c" }, input := "a", connected := true } =
      deriveApp { store := { currentChatId := some "c" }, input := "b", connected := false } :=
  C6_view_pure_function_of_log _ _ rfl rfl

/-- C7 counterexample: a tool-call event whose payload has neither an
explicit call identifier nor a generic payload identifier but carries a
shell command is keyed by the command string "ls", not by the synthesized
timestamp-and-id fallback the claim prescribes. -/
theorem C7_counterexample_shell_command_precedence :
    toolId shellOnlyEvent = "ls" ∧
    toolCallIdOf shellOnlyEvent.payload = none ∧
    shellOnlyEvent.payload.id = none ∧
    toolId shellOnlyEvent ≠
      "tool-" ++ toString shellOnlyEvent.timestamp ++ "-" ++ shellOnlyEvent.id := by
  decide

/-- C7 (amended): the tracking identifier precedence has four levels —
explicit call identifier, else generic payload identifier, else the shell
command from the payload, else the synthesized fallback combining timestamp
and event id — so every tool call is trackable; and events sharing an
identifier merge into exactly one record: the tool map's keys are
duplicate-free and every tool-call event's identifier is a key of the map. -/
theorem C7_toolid_fallback_and_merge (e : ChatEvent) (es : List ChatEvent)
    (he : e ∈ es) (ht : e.type = "tool_call") :
    ((toolMapOf es).map Prod.fst).Nodup ∧
    toolId e ∈ (toolMapOf es).map Prod.fst ∧
    (strTruthy (toolCallIdOf e.payload) = false → strTruthy e.payload.id = false →
      strTruthy (shellCmdOf e.payload) = false →
      toolId e = "tool-" ++ toString e.timestamp ++ "-" ++ e.id) := by
  refine ⟨nodup_keys_toolMapOf es, mem_keys_toolMapOf he ht, ?_⟩
  intro h1 h2 h3
  simp [toolId, h1, h2, h3]

/-- C7 witness: started and completed events sharing identifier "t1" merge
into one record whose key is in the map. -/
theorem C7_witness_t1_merges :
    toolId (toolStartedEvent "t1" "w1" 4) ∈
      (toolMapOf [toolStartedEvent "t1" "w1" 4, toolCompletedEvent "t1" "w2" 5]).map Prod.fst :=
  (C7_toolid_fallback_and_merge (toolStartedEvent "t1" "w1" 4)
    [toolStartedEvent "t1" "w1" 4, toolCompletedEvent "t1" "w2" 5]
    (List.mem_cons_self _ _) rfl).2.1

/-- C8 counterexample: a channel frame that fails to parse at the client is
dropped silently — with a session bound, the store is left unchanged and
nothing (not even the raw text) is appended to the event log. -/
theorem C8_counterexample_client_drops_unparseable_frame :
    clientOnMessage { currentChatId := some "c1" } "not-json" none 5 "e9" =
      { currentChatId := some "c1" } ∧
    getEvents (clientOnMessage { currentChatId := some "c1" } "not-json" none 5 "e9").events "c1" = [] := by
  decide

/-- C8 (amended): an agent stdout line that fails to parse is wrapped by the
server as a generic `raw` diagnostic frame rather than dropped, and that
wrapped frame, arriving at a client with a bound session, is appended to the
event log; but a channel frame that fails to parse at the client itself is
discarded without being appended — the persisted log is never corrupted,
yet the claim's "raw text is still appended" holds only for the
server-side wrapping path. -/
theorem C8_parse_failure_paths (line : String) (hline : jsTrim line ≠ "")
    (s : StoreState) (raw : String) (now : Nat) (eid : String) (cid : String)
    (hcid : s.currentChatId = some cid) (hc : cid ≠ "") :
    handleStdoutLine line none = [rawWrapPayload line] ∧
    clientOnMessage s raw none now eid = s ∧
    clientOnMessage s raw (some (rawWrapPayload line)) now eid =
      { s with events := addEvent s.events cid (mkChatEvent cid now eid raw (rawWrapPayload line)) } := by
  refine ⟨by simp [handleStdoutLine, hline], rfl, ?_⟩
  unfold clientOnMessage
  rw [hcid]
  simp [rawWrapPayload, hc]

/-- C8 witness: a concrete unparseable line is wrapped by the server and the
client leaves its store untouched on its own parse failure. -/
theorem C8_witness_wrap_and_drop :
    handleStdoutLine "garbage" none = [rawWrapPayload "garbage"] ∧
    clientOnMessage { currentChatId := some "c" } "x" none 0 "w" =
      { currentChatId := some "c" } := by
  have h := C8_parse_failure_paths "garbage" (by decide)
    { currentChatId := some "c" } "x" 0 "w" "c" rfl (by decide)
  exact ⟨h.1, h.2.1⟩

/-- C9 counterexample: with the channel open and a session bound but the
input text empty, `handleSend` appends nothing and transmits nothing — the
claim's preconditions (Open and bound) are not sufficient for the send to
happen. -/
theorem C9_counterexample_empty_input_no_send :
    handleSend { currentChatId := some "c1" } "" true true 5 "e1" =
      ({ currentChatId := some "c1" }, none) := by
  decide

/-- C9 (amended): `handleSend` is a no-op (state unchanged, nothing
transmitted) unless the channel is open, a socket is held, a non-empty
session identifier is bound, and the text is non-empty; when all these hold
the locally-authored user event is appended to the store and the prompt is
transmitted in the same step; and any echoed `user` frame arriving back over
the channel is ignored rather than appended a second time. -/
theorem C9_send_preconditions_and_echo (s : StoreState) (input : String)
    (ws conn : Bool) (now : Nat) (eid : String) (cid : String) (raw : String) :
    (input = "" ∨ s.currentChatId = none ∨ s.currentChatId = some "" ∨
        ws = false ∨ conn = false →
      handleSend s input ws conn now eid = (s, none)) ∧
    (input ≠ "" → s.currentChatId = some cid → cid ≠ "" → ws = true →
      conn = true →
      handleSend s input ws conn now eid =
        ({ s with events := addEvent s.events cid (userEventOf cid now eid input) },
          some ⟨cid, input⟩)) ∧
    (∀ d : Payload, d.type = some "user" →
      clientOnMessage s raw (some d) now eid = s) := by
  refine ⟨?_, ?_, ?_⟩
  · rintro (hin | hcid | hcid | hws | hconn)
    · unfold handleSend
      rw [if_pos hin]
    · unfold handleSend
      rw [hcid]
      split <;> rfl
    · unfold handleSend
      rw [hcid]
      split <;> simp
    · subst hws
      unfold handleSend
      split
      · rfl
      · split
        · rfl
        · split_ifs <;> simp_all
    · subst hconn
      unfold handleSend
      split
      · rfl
      · split
        · rfl
        · split_ifs <;> simp_all
  · intro hin hcid hc hws hconn
    subst hws; subst hconn
    unfold handleSend
    rw [if_neg hin, hcid]
    simp [hc]
  · intro d hd
    simp only [clientOnMessage]
    rw [hd, if_neg (by decide : ¬ (some "user" : Option String) = some "connected")]
    cases hs : s.currentChatId with
    | none => rfl
    | some c => by_cases hcc : c = "" <;> simp [hcc]

/-- C9 witness: a concrete open, bound, non-empty send appends the user
event and transmits the frame; the same state with empty input, with the
socket absent, or with the channel closed sends nothing; and a concrete
echoed user frame is dropped. -/
theorem C9_witness_send_and_echo :
    handleSend { currentChatId := some "c" } "hi" true true 1 "w" =
      ({ currentChatId := some "c",
         events := addEvent [] "c" (userEventOf "c" 1 "w" "hi") },
        some ⟨"c", "hi"⟩) ∧
    handleSend { currentChatId := some "c" } "" true true 1 "w" =
      ({ currentChatId := some "c" }, none) ∧
    handleSend { currentChatId := some "c" } "hi" false true 1 "w" =
      ({ currentChatId := some "c" }, none) ∧
    handleSend { currentChatId := some "c" } "hi" true false 1 "w" =
      ({ currentChatId := some "c" }, none) ∧
    clientOnMessage { currentChatId := some "c" } "x"
        (some { type := some "user", prompt := some "hi" }) 1 "w" =
      { currentChatId := some "c" } := by
  have h := C9_send_preconditions_and_echo { currentChatId := some "c" } "hi"
    true true 1 "w" "c" "x"
  have hempty := C9_send_preconditions_and_echo { currentChatId := some "c" } ""
    true true 1 "w" "c" "x"
  have hnows := C9_send_preconditions_and_echo { currentChatId := some "c" } "hi"
    false true 1 "w" "c" "x"
  have hnoconn := C9_send_preconditions_and_echo { currentChatId := some "c" } "hi"
    true false 1 "w" "c" "x"
  exact ⟨h.2.1 (by decide) rfl (by decide) rfl rfl,
         hempty.1 (Or.inl rfl),
         hnows.1 (Or.inr (Or.inr (Or.inr (Or.inl rfl)))),
         hnoconn.1 (Or.inr (Or.inr (Or.inr (Or.inr rfl)))),
         h.2.2 { type := some "user", prompt := some "hi" } rfl⟩

/-- C10: a non-handshake frame received while no session identifier is bound
(`currentChatId` is null) is silently discarded — the store (current
session, sessions list and event map) is left completely unchanged and the
frame is never stored. -/
theorem C10_unbound_frames_discarded (s : StoreState) (raw : String)
    (d : Payload) (now : Nat) (eid : String) (hnil : s.currentChatId = none)
    (hd : d.type ≠ some "connected") :
    clientOnMessage s raw (some d) now eid = s := by
  simp only [clientOnMessage]
  rw [if_neg hd, hnil]

/-- C10 witness: a concrete assistant frame arriving with no bound session
leaves the fresh store unchanged. -/
theorem C10_witness_assistant_frame_dropped :
    clientOnMessage {} "x" (some { type := some "assistant" }) 0 "w" = {} :=
  C10_unbound_frames_discarded {} "x" { type := some "assistant" } 0 "w" rfl
    (by decide)
